import Mathlib

/-!
Verification of the fetch–validate–join pipeline (`src/main.py`).

The program fetches users, their latest posts and latest comments from a
JSON API, joins them into flat rows and writes a CSV file.  We embed the
Python code shallowly:

* JSON scalar values are `PyVal` (null, integer, string); a JSON object
  (Python dict) is a `Record`, an association list with first-match lookup.
* The network is an oracle `Api`: for every URL and attempt number it gives
  the outcome of that attempt (`Except String (List Record)`), so the
  tenacity retry loop of `fetch_json` becomes an explicit case analysis on
  attempts 0, 1, 2.
* Fallible Python code (a raised exception) is `Except PyError`.
* `asyncio.gather` is modelled with an explicit completion schedule: an
  order in which the per-user tasks finish, each depositing its result in
  its own slot.  Since each task is a pure function of the oracle, any
  schedule that completes every task yields the slot list in task order.
* Integer arithmetic: Python `%` on ints with positive modulus agrees with
  `Int.emod`.
-/

inductive PyVal where
  | vNull
  | vInt (n : Int)
  | vStr (s : String)
deriving Repr, DecidableEq

abbrev Record := List (String × PyVal)

/-- Python `d.get(k)`: the value stored at key `k`, or `None` when the key
is absent.  (CPython dicts have unique keys; first-match lookup on the
association list models this.) -/
def pyGet (r : Record) (k : String) : PyVal :=
  (List.lookup k r).getD PyVal.vNull

/-- Embeds `validate_data(data, required_fields)` from `src/main.py` lines 64–72:
walks the required fields, returning `False` at the first field that is
missing from `data` or has value `None`, else `True`.  Total: the Python
function raises no exception on dict input. -/
def validate_data (data : Record) : List String → Bool
  | [] => true
  | f :: rest =>
    match List.lookup f data with
    | none => false
    | some v => if v = PyVal.vNull then false else validate_data data rest

/-- The error raised by `fetch_json` once all retry attempts are exhausted:
it carries the URL and the last underlying error (spec §7 `FetchError`). -/
structure FetchError where
  url : String
  lastErr : String
deriving Repr, DecidableEq

/-- A Python exception surfacing from the pipeline: either an exhausted
fetch, or a `TypeError` (e.g. `None % 2`). -/
inductive PyError where
  | fetchErr (e : FetchError)
  | typeErr (msg : String)
deriving Repr, DecidableEq

/-- The upstream API together with its failure behaviour: for a URL and an
attempt number (0-based), the outcome of that GET attempt. -/
structure Api where
  attempts : String → Nat → Except String (List Record)

def BASE_URL : String := "https://jsonplaceholder.typicode.com"
def USERS_URL : String := BASE_URL ++ "/users"
def POSTS_URL : String := BASE_URL ++ "/posts"
def COMMENTS_URL : String := BASE_URL ++ "/comments"

/-- Python `str(v)`, as used in f-string URL interpolation. -/
def pyStr : PyVal → String
  | .vNull => "None"
  | .vInt n => toString n
  | .vStr s => s

def postsUrlFor (uid : PyVal) : String := POSTS_URL ++ "?userId=" ++ pyStr uid

def commentsUrlFor (pid : PyVal) : String := COMMENTS_URL ++ "?postId=" ++ pyStr pid

/-- Embeds `fetch_json` under `@retry(stop=stop_after_attempt(3), ...)`
(`src/main.py` lines 20–33): attempt 0; on failure wait and attempt 1; on
failure wait and attempt 2; if that also fails, raise an error carrying the
URL and the last underlying error. -/
def fetch_json (api : Api) (url : String) : Except FetchError (List Record) :=
  match api.attempts url 0 with
  | .ok v => .ok v
  | .error _ =>
    match api.attempts url 1 with
    | .ok v => .ok v
    | .error _ =>
      match api.attempts url 2 with
      | .ok v => .ok v
      | .error e => .error ⟨url, e⟩

/-- A fetch whose error is lifted into the pipeline's exception type. -/
def fetchE (api : Api) (url : String) : Except PyError (List Record) :=
  (fetch_json api url).mapError PyError.fetchErr

/-- tenacity `wait_exponential(multiplier, min, max)` evaluated at
`attempt_number = n`: `max(max(0, min), min(multiplier * 2^n, max))`.
With this program's integral parameters the float arithmetic is exact. -/
def wait_exponential (multiplier mn mx n : Nat) : Nat :=
  Nat.max (Nat.max 0 mn) (Nat.min (multiplier * 2 ^ n) mx)

/-- The wait slept after the n-th failed attempt of `fetch_json`
(`multiplier=1, min=4, max=10`). -/
def fetchWait (n : Nat) : Nat := wait_exponential 1 4 10 n

/-- The list of backoff delays actually slept by one `fetch_json` call:
none when attempt 0 succeeds; one delay when attempt 1 succeeds; two delays
otherwise (attempt 2 is the last, no wait follows it). -/
def retryDelays (api : Api) (url : String) : List Nat :=
  match api.attempts url 0 with
  | .ok _ => []
  | .error _ =>
    match api.attempts url 1 with
    | .ok _ => [fetchWait 1]
    | .error _ => [fetchWait 1, fetchWait 2]

/-- How many GET attempts one `fetch_json` call issues. -/
def numAttempts (api : Api) (url : String) : Nat :=
  match api.attempts url 0 with
  | .ok _ => 1
  | .error _ =>
    match api.attempts url 1 with
    | .ok _ => 2
    | .error _ => 3

/-- The Python test `user.get("id") % 2 == 0` (`src/main.py` line 41):
defined on integers; on `None` (missing or null id) or a string, Python
raises `TypeError`. -/
def evenIdTest (u : Record) : Except PyError Bool :=
  match pyGet u "id" with
  | .vInt n => .ok (n % 2 == 0)
  | _ => .error (.typeErr "unsupported operand type for %")

/-- The pure evenness predicate, meaningful when the id is an integer. -/
def hasEvenId (u : Record) : Bool :=
  match pyGet u "id" with
  | .vInt n => n % 2 == 0
  | _ => false

/-- The list comprehension of `get_users`: evaluates the evenness test on
each user in order, propagating the first exception. -/
def filterEvenUsers : List Record → Except PyError (List Record)
  | [] => .ok []
  | u :: rest => do
    let b ← evenIdTest u
    let tail ← filterEvenUsers rest
    pure (if b then u :: tail else tail)

/-- Embeds `get_users` (`src/main.py` lines 36–41): fetch all users, keep those
with even id. -/
def get_users (api : Api) : Except PyError (List Record) := do
  let users ← fetchE api USERS_URL
  filterEvenUsers users

/-- The sort key `x.get("id")` used by the posts/comments sorts.  The
Python comparison is only defined (no `TypeError`) when every id is an
integer, which the API schema guarantees; the embedding totalises the key
with 0 in the unreachable non-integer case, and theorems that talk about
actual id values assume integer ids. -/
def idKey (r : Record) : Int :=
  match pyGet r "id" with
  | .vInt n => n
  | _ => 0

/-- The comparison realising `sorted(xs, key=lambda x: x.get("id"),
reverse=True)`: descending by id.  Python's sort and `List.mergeSort` are
both stable for this total preorder, so they compute the same list. -/
def descById (a b : Record) : Bool := idKey b ≤ idKey a

/-- Sort descending by id (stably) and keep the first `n`. -/
def latestBy (n : Nat) (xs : List Record) : List Record :=
  (xs.mergeSort descById).take n

/-- Embeds `get_latest_posts_for_user` (`src/main.py` lines 44–51): fetch the
user's posts, sort by id descending, take the first 5. -/
def get_latest_posts_for_user (api : Api) (user_id : PyVal) :
    Except PyError (List Record) := do
  let posts ← fetchE api (postsUrlFor user_id)
  pure (latestBy 5 posts)

/-- Embeds `get_latest_comments_for_post` (`src/main.py` lines 54–61): fetch the
post's comments, sort by id descending, take the first 3. -/
def get_latest_comments_for_post (api : Api) (post_id : PyVal) :
    Except PyError (List Record) := do
  let comments ← fetchE api (commentsUrlFor post_id)
  pure (latestBy 3 comments)

/-- The dict literal appended for each valid (user, post, comment) triple
(`src/main.py` lines 95–103), key order as written in the source. -/
def mkRow (user_id user_name post_id post_title comment_id comment_body
    comment_email : PyVal) : Record :=
  [("user_id", user_id), ("user_name", user_name), ("post_id", post_id),
   ("post_title", post_title), ("comment_id", comment_id),
   ("comment_body", comment_body), ("comment_author_email", comment_email)]

/-- The inner comment loop of `process_user_data`: one row per comment that
passes validation, in comment order. -/
def commentRows (user_id user_name post_id post_title : PyVal)
    (comments : List Record) : List Record :=
  comments.filterMap fun comment =>
    if validate_data comment ["id", "body", "email"] then
      some (mkRow user_id user_name post_id post_title (pyGet comment "id")
        (pyGet comment "body") (pyGet comment "email"))
    else none

/-- The post loop of `process_user_data`: skip invalid posts, fetch the
valid posts' comments in post order, accumulate rows. -/
def postLoop (api : Api) (user_id user_name : PyVal) :
    List Record → Except PyError (List Record)
  | [] => .ok []
  | post :: rest =>
    if validate_data post ["id", "title"] then do
      let comments ← get_latest_comments_for_post api (pyGet post "id")
      let tail ← postLoop api user_id user_name rest
      pure (commentRows user_id user_name (pyGet post "id")
        (pyGet post "title") comments ++ tail)
    else postLoop api user_id user_name rest

/-- Embeds `process_user_data` (`src/main.py` lines 75–105): skip the user when
invalid, else fetch the latest posts and run the post/comment loops. -/
def process_user_data (api : Api) (user : Record) :
    Except PyError (List Record) :=
  if validate_data user ["id", "name"] then do
    let posts ← get_latest_posts_for_user api (pyGet user "id")
    postLoop api (pyGet user "id") (pyGet user "name") posts
  else .ok []

/-- One completion step of `asyncio.gather`: when task `i` finishes, its
result `tasks[i]` is stored in slot `i`; the schedule is the order in which
tasks complete. -/
def gatherFill (tasks : List α) : List Nat → List (Option α) → List (Option α)
  | [], slots => slots
  | i :: rest, slots => gatherFill tasks rest (slots.set i tasks[i]?)

/-- Models `asyncio.gather` run under a given completion schedule: slots start
empty and are filled as tasks complete. -/
def gatherRun (tasks : List α) (schedule : List Nat) : List (Option α) :=
  gatherFill tasks schedule (List.replicate tasks.length none)

/-- Collapse the slot list once every slot is filled. -/
def allSome : List (Option α) → Option (List α)
  | [] => some []
  | none :: _ => none
  | some a :: rest => (allSome rest).map (a :: ·)

/-- Models `await asyncio.gather(*tasks)`: the per-task results in task order,
with the first exception (if any) re-raised. -/
def sequenceE : List (Except PyError (List Record)) →
    Except PyError (List (List Record))
  | [] => .ok []
  | .error e :: _ => .error e
  | .ok v :: rest => (sequenceE rest).map (v :: ·)

/-- The async part of `main` (`src/main.py` lines 112–118), sequentially:
fetch the qualifying users, process each, flatten the per-user row lists in
user order. -/
def runPipeline (api : Api) : Except PyError (List Record) := do
  let users ← get_users api
  let lists ← sequenceE (users.map (process_user_data api))
  pure lists.flatten

/-- The async part of `main` with the gather's completion order made
explicit: per-user tasks finish in `schedule` order, each filling its own
slot; the slots are then read out in task order. -/
def runPipelineSched (api : Api) (schedule : List Nat) :
    Except PyError (List Record) := do
  let users ← get_users api
  match allSome (gatherRun (users.map (process_user_data api)) schedule) with
  | none => .error (.typeErr "gather incomplete")
  | some results => do
    let lists ← sequenceE results
    pure lists.flatten

/-- The CSV field names of `main` (`src/main.py` lines 123–126). -/
def fieldnames : List String :=
  ["user_id", "user_name", "post_id", "post_title", "comment_id",
   "comment_body", "comment_author_email"]

/-- The CSV file `DictWriter` produces: a header line, then one line per
row with the row's values in field order. -/
def csvOf (rows : List Record) : List (List String) :=
  fieldnames :: rows.map (fun r => fieldnames.map (fun k => pyStr (pyGet r k)))

/-- Embeds `main` (`src/main.py` lines 108–132) acting on the output file: given
the pre-existing file contents (`none` = no file), return the exception
that aborted the run (if any) and the resulting file contents.  An
exception propagates before the `with open(...)` is reached, so the file is
untouched; an empty result set skips the write. -/
def runMain (api : Api) (fs : Option (List (List String))) :
    Option PyError × Option (List (List String)) :=
  match runPipeline api with
  | .error e => (some e, fs)
  | .ok rows => if rows.isEmpty then (none, fs) else (none, some (csvOf rows))

/-! ### Concrete fixtures used by witnesses and counterexamples -/

/-- An API on which every attempt at every URL fails. -/
def failApi : Api := ⟨fun _ _ => .error "boom"⟩

/-- An API on which every fetch immediately returns the empty collection. -/
def emptyApi : Api := ⟨fun _ _ => .ok []⟩

/-- An API that fails the first two attempts and succeeds on the third. -/
def thirdTryApi : Api := ⟨fun _ n => if n < 2 then .error "boom" else .ok []⟩

/-- A user record with no `"id"` key at all. -/
def noIdUser : Record := [("name", PyVal.vStr "A")]

/-- An API whose user collection contains a record without an id. -/
def noIdApi : Api := ⟨fun _ _ => .ok [noIdUser]⟩

/-- Two well-formed users, one odd id, one even id. -/
def twoUsers : List Record :=
  [[("id", PyVal.vInt 1), ("name", PyVal.vStr "A")],
   [("id", PyVal.vInt 2), ("name", PyVal.vStr "B")]]

/-- An API returning `twoUsers` for every URL. -/
def usersApi : Api := ⟨fun _ _ => .ok twoUsers⟩

/-! ### Claims -/

/-- C6: `validate_data` returns `true` iff every required field is present
in the record with a non-null value; it is a total function (the Python
code raises no exception on dict input), returning `false` otherwise. -/
theorem claim_c6_validate_iff (data : Record) (req : List String) :
    validate_data data req = true ↔
      ∀ f ∈ req, ∃ v, List.lookup f data = some v ∧ v ≠ PyVal.vNull := by
  induction req with
  | nil => simp [validate_data]
  | cons f rest ih =>
    rw [List.forall_mem_cons]
    cases h : List.lookup f data with
    | none => simp [validate_data, h]
    | some v =>
      by_cases hv : v = PyVal.vNull
      · subst hv; simp [validate_data, h]
      · simp [validate_data, h, hv, ih]

/-- C10: a fetched users list containing a record with no (or a null) id
makes `get_users` raise a `TypeError` (`None % 2`) instead of filtering the
record out, and that exception aborts the run with nothing written. -/
theorem claim_c10_missing_id_raises :
    get_users noIdApi = .error (PyError.typeErr "unsupported operand type for %") ∧
    runMain noIdApi (some [["old"]]) =
      (some (PyError.typeErr "unsupported operand type for %"), some [["old"]]) :=
  ⟨rfl, rfl⟩

/-- C7: a fetch that fails twice and succeeds on the third attempt returns
exactly what an immediately-successful fetch returns — retries are
transparent to the caller. -/
theorem claim_c7_retry_transparent (api1 api2 : Api) (url : String)
    (v : List Record) (e0 e1 : String)
    (h0 : api1.attempts url 0 = .error e0) (h1 : api1.attempts url 1 = .error e1)
    (h2 : api1.attempts url 2 = .ok v) (g0 : api2.attempts url 0 = .ok v) :
    fetch_json api1 url = fetch_json api2 url ∧ fetch_json api1 url = .ok v := by
  unfold fetch_json
  rw [h0, h1, h2, g0]
  exact ⟨rfl, rfl⟩

/-- Witness for C7 at a concrete pair of APIs. -/
theorem claim_c7_retry_transparent_witness :
    fetch_json thirdTryApi USERS_URL = fetch_json emptyApi USERS_URL ∧
    fetch_json thirdTryApi USERS_URL = .ok [] :=
  claim_c7_retry_transparent thirdTryApi emptyApi USERS_URL [] "boom" "boom"
    rfl rfl rfl rfl

/-- C2: exhausting all three attempts at any URL yields a `FetchError`
carrying that URL and the last underlying error, and any error from the
pipeline propagates out of the run with the output file untouched (nothing
is written). -/
theorem claim_c2_fetch_failure_aborts :
    (∀ (api : Api) (url : String) (e0 e1 e2 : String),
        api.attempts url 0 = .error e0 → api.attempts url 1 = .error e1 →
        api.attempts url 2 = .error e2 →
        fetch_json api url = .error ⟨url, e2⟩) ∧
    (∀ (api : Api) (fs : Option (List (List String))) (e : PyError),
        runPipeline api = .error e → runMain api fs = (some e, fs)) := by
  constructor
  · intro api url e0 e1 e2 h0 h1 h2
    unfold fetch_json
    rw [h0, h1, h2]
  · intro api fs e h
    unfold runMain
    rw [h]

/-- Witness for C2: an always-failing API aborts the run and leaves the
pre-existing file contents in place. -/
theorem claim_c2_fetch_failure_aborts_witness :
    fetch_json failApi USERS_URL = .error ⟨USERS_URL, "boom"⟩ ∧
    runMain failApi (some [["old"]]) =
      (some (.fetchErr ⟨USERS_URL, "boom"⟩), some [["old"]]) :=
  ⟨claim_c2_fetch_failure_aborts.1 failApi USERS_URL "boom" "boom" "boom" rfl rfl rfl,
   claim_c2_fetch_failure_aborts.2 failApi (some [["old"]])
     (.fetchErr ⟨USERS_URL, "boom"⟩) rfl⟩

/-- C3 counterexample: the delays of a call that exhausts its 3 attempts
are 4s and 4s — the second delay is 4, not 8 (nor a value clamped to 10),
and the delays do not strictly increase, refuting the claimed sequence
"4s, 8s (clamped to 10s), 10s" and the claimed strict growth. -/
theorem claim_c3_backoff_counterexample :
    retryDelays failApi USERS_URL = [4, 4] ∧
    fetchWait 1 = 4 ∧ fetchWait 2 = 4 ∧
    ¬ fetchWait 1 < fetchWait 2 ∧ fetchWait 2 ≠ 8 ∧ fetchWait 2 ≠ 10 := by
  refine ⟨rfl, rfl, rfl, ?_, ?_, ?_⟩ <;> decide

/-- C3 amended: `fetch_json` makes at most 3 attempts; each backoff delay
is `max(4, min(2^n, 10))` for the n-th failed attempt, so delays are
non-decreasing, at least 4 and at most 10; concretely the two delays of a
call whose first two attempts fail are 4s and 4s. -/
theorem claim_c3_amended_backoff :
    (∀ (api : Api) (url : String), numAttempts api url ≤ 3) ∧
    (∀ n : Nat, 4 ≤ fetchWait n ∧ fetchWait n ≤ 10 ∧ fetchWait n ≤ fetchWait (n + 1)) ∧
    (∀ (api : Api) (url : String) (e0 e1 : String),
        api.attempts url 0 = .error e0 → api.attempts url 1 = .error e1 →
        retryDelays api url = [4, 4]) := by
  refine ⟨?_, ?_, ?_⟩
  · intro api url
    unfold numAttempts
    cases h0 : api.attempts url 0 with
    | ok v => exact (show (1 : Nat) ≤ 3 by decide)
    | error e =>
      cases h1 : api.attempts url 1 with
      | ok v => exact (show (2 : Nat) ≤ 3 by decide)
      | error e => exact (show (3 : Nat) ≤ 3 by decide)
  · intro n
    have h2 : (2 : Nat) ^ n ≤ 2 ^ (n + 1) :=
      Nat.pow_le_pow_right (by decide) (Nat.le_succ n)
    unfold fetchWait wait_exponential
    simp only [Nat.max_def, Nat.min_def, one_mul]
    split_ifs <;> omega
  · intro api url e0 e1 h0 h1
    unfold retryDelays
    rw [h0, h1]
    rfl

/-- Witness for C3 (amended) at the always-failing API. -/
theorem claim_c3_amended_backoff_witness :
    numAttempts failApi USERS_URL ≤ 3 ∧
    (4 ≤ fetchWait 1 ∧ fetchWait 1 ≤ 10 ∧ fetchWait 1 ≤ fetchWait 2) ∧
    retryDelays failApi USERS_URL = [4, 4] :=
  ⟨claim_c3_amended_backoff.1 failApi USERS_URL,
   claim_c3_amended_backoff.2.1 1,
   claim_c3_amended_backoff.2.2 failApi USERS_URL "boom" "boom" rfl rfl⟩

/-- C8: when the joined result set is empty, the run completes without
error, performs no file write and leaves any pre-existing output file
untouched. -/
theorem claim_c8_empty_no_write (api : Api) (fs : Option (List (List String)))
    (h : runPipeline api = .ok []) : runMain api fs = (none, fs) := by
  unfold runMain
  rw [h]
  rfl

/-- Witness for C8: an API with no users at all leaves a pre-existing file
in place and reports no error. -/
theorem claim_c8_empty_no_write_witness :
    runMain emptyApi (some [["old"]]) = (none, some [["old"]]) :=
  claim_c8_empty_no_write emptyApi (some [["old"]]) rfl

/-- When a record's id is an integer, the evenness test does not raise and
agrees with the pure predicate. -/
theorem evenIdTest_ok_of_int {u : Record} (h : ∃ n, pyGet u "id" = PyVal.vInt n) :
    evenIdTest u = .ok (hasEvenId u) := by
  obtain ⟨n, hn⟩ := h
  unfold evenIdTest hasEvenId
  rw [hn]

/-- On a list of records that all carry integer ids, the comprehension of
`get_users` raises nothing and computes the even-id filter. -/
theorem filterEvenUsers_eq_filter :
    ∀ (l : List Record), (∀ u ∈ l, ∃ n, pyGet u "id" = PyVal.vInt n) →
      filterEvenUsers l = .ok (l.filter hasEvenId) := by
  intro l
  induction l with
  | nil => intro _; rfl
  | cons u rest ih =>
    intro h
    have hu := evenIdTest_ok_of_int (h u (by simp))
    have hr := ih (fun v hv => h v (List.mem_cons_of_mem _ hv))
    simp only [filterEvenUsers, hu, hr, List.filter_cons, bind, Except.bind, pure]
    cases hasEvenId u <;> rfl

/-- C5: given a fetched users list whose records carry integer ids,
`get_users` returns exactly the even-id users, in source order (the output
is a sublist of the input), and every returned user has an even id. -/
theorem claim_c5_even_filter (api : Api) (users : List Record)
    (hfetch : fetch_json api USERS_URL = .ok users)
    (hids : ∀ u ∈ users, ∃ n, pyGet u "id" = PyVal.vInt n) :
    get_users api = .ok (users.filter hasEvenId) ∧
    List.Sublist (users.filter hasEvenId) users ∧
    (∀ u ∈ users.filter hasEvenId, hasEvenId u = true) := by
  refine ⟨?_, List.filter_sublist _, fun u hu => (List.mem_filter.mp hu).2⟩
  have hE : fetchE api USERS_URL = .ok users := by
    unfold fetchE
    rw [hfetch]
    rfl
  simp only [get_users, hE, filterEvenUsers_eq_filter users hids, bind, Except.bind]

/-- Witness for C5 at a two-user API: the odd-id user is dropped, the
even-id user kept. -/
theorem claim_c5_even_filter_witness :
    get_users usersApi = .ok (twoUsers.filter hasEvenId) ∧
    List.Sublist (twoUsers.filter hasEvenId) twoUsers ∧
    (∀ u ∈ twoUsers.filter hasEvenId, hasEvenId u = true) :=
  claim_c5_even_filter usersApi twoUsers rfl (by
    intro u hu
    simp only [twoUsers, List.mem_cons, List.not_mem_nil, or_false] at hu
    rcases hu with h | h <;> subst h
    · exact ⟨1, rfl⟩
    · exact ⟨2, rfl⟩)

/-- The comparison `descById` is transitive (it compares integer keys). -/
theorem descById_trans : ∀ (a b c : Record),
    descById a b → descById b c → descById a c := by
  intro a b c hab hbc
  simp only [descById, decide_eq_true_eq] at *
  omega

/-- The comparison `descById` is total (integer keys are linearly ordered). -/
theorem descById_total : ∀ (a b : Record), descById a b || descById b a := by
  intro a b
  simp only [descById, Bool.or_eq_true, decide_eq_true_eq]
  omega

/-- The sorted list underlying `latestBy` is pairwise descending by id. -/
theorem mergeSort_descById_pairwise (xs : List Record) :
    List.Pairwise (fun a b => idKey b ≤ idKey a) (xs.mergeSort descById) :=
  (List.sorted_mergeSort descById_trans descById_total xs).imp
    (by intro a b h; simpa [descById] using h)

/-- Fixture: three posts with out-of-order ids. -/
def threePosts : List Record :=
  [[("id", PyVal.vInt 1), ("title", PyVal.vStr "P1")],
   [("id", PyVal.vInt 3), ("title", PyVal.vStr "P3")],
   [("id", PyVal.vInt 2), ("title", PyVal.vStr "P2")]]

/-- An API returning `threePosts` for every URL. -/
def postsApi : Api := ⟨fun _ _ => .ok threePosts⟩

/-- Fixture: two distinct posts sharing an id. -/
def dupA : Record := [("id", PyVal.vInt 7), ("title", PyVal.vStr "A")]

/-- Fixture: the second post with the same id as `dupA`. -/
def dupB : Record := [("id", PyVal.vInt 7), ("title", PyVal.vStr "B")]

/-- Fixture: a post list with a duplicated id. -/
def dupPosts : List Record := [dupA, dupB]

/-- C4: `get_latest_posts_for_user` is sort-descending-by-id-then-take-5
over what the API returned (`get_latest_comments_for_post` the same with
3); the result has `min n |xs|` elements (all of them when fewer than `n`
are available), is in descending id order, consists exactly of the
highest-id records (everything left out has an id no larger than anything
kept), and the sort is stable: records sharing an id keep their relative
input order. -/
theorem claim_c4_latest_sorted :
    (∀ (api : Api) (uid : PyVal) (xs : List Record),
        fetch_json api (postsUrlFor uid) = .ok xs →
        get_latest_posts_for_user api uid = .ok (latestBy 5 xs)) ∧
    (∀ (api : Api) (pid : PyVal) (xs : List Record),
        fetch_json api (commentsUrlFor pid) = .ok xs →
        get_latest_comments_for_post api pid = .ok (latestBy 3 xs)) ∧
    (∀ (xs : List Record) (n : Nat),
        (latestBy n xs).length = min n xs.length ∧
        List.Pairwise (fun a b => idKey b ≤ idKey a) (latestBy n xs) ∧
        (latestBy n xs ++ (xs.mergeSort descById).drop n).Perm xs ∧
        (xs.length ≤ n → (latestBy n xs).Perm xs) ∧
        (∀ a ∈ latestBy n xs, ∀ b ∈ (xs.mergeSort descById).drop n,
          idKey b ≤ idKey a)) ∧
    (∀ (xs : List Record) (a b : Record), idKey a = idKey b →
        List.Sublist [a, b] xs → List.Sublist [a, b] (xs.mergeSort descById)) := by
  refine ⟨?_, ?_, ?_, ?_⟩
  · intro api uid xs h
    unfold get_latest_posts_for_user fetchE
    rw [h]
    rfl
  · intro api pid xs h
    unfold get_latest_comments_for_post fetchE
    rw [h]
    rfl
  · intro xs n
    have hs := mergeSort_descById_pairwise xs
    refine ⟨?_, ?_, ?_, ?_, ?_⟩
    · simp [latestBy]
    · exact List.Pairwise.sublist (List.take_sublist n _) hs
    · rw [latestBy, List.take_append_drop]
      exact List.mergeSort_perm xs descById
    · intro hl
      have : latestBy n xs = xs.mergeSort descById := by
        rw [latestBy]
        exact List.take_of_length_le (by simpa using hl)
      rw [this]
      exact List.mergeSort_perm xs descById
    · intro a ha b hb
      have h2 : List.Pairwise (fun a b => idKey b ≤ idKey a)
          ((xs.mergeSort descById).take n ++ (xs.mergeSort descById).drop n) := by
        rw [List.take_append_drop]
        exact hs
      exact (List.pairwise_append.mp h2).2.2 a ha b hb
  · intro xs a b hid hsub
    exact List.pair_sublist_mergeSort descById_trans descById_total
      (by simp [descById, hid]) hsub

/-- Witness for C4 at concrete fixtures: three posts sorted and capped,
the fewer-than-cap case, and a duplicated id keeping input order. -/
theorem claim_c4_latest_sorted_witness :
    get_latest_posts_for_user postsApi (PyVal.vInt 2) = .ok (latestBy 5 threePosts) ∧
    get_latest_comments_for_post postsApi (PyVal.vInt 10) = .ok (latestBy 3 threePosts) ∧
    (latestBy 5 threePosts).Perm threePosts ∧
    List.Sublist [dupA, dupB] (dupPosts.mergeSort descById) :=
  ⟨claim_c4_latest_sorted.1 postsApi (PyVal.vInt 2) threePosts rfl,
   claim_c4_latest_sorted.2.1 postsApi (PyVal.vInt 10) threePosts rfl,
   (claim_c4_latest_sorted.2.2.1 threePosts 5).2.2.2.1 (by decide),
   claim_c4_latest_sorted.2.2.2 dupPosts dupA dupB rfl (List.Sublist.refl _)⟩

/-- Slot contents after some completions: a slot is filled with its own
task's result exactly when its index has completed; other slots are
untouched.  (Re-completions rewrite the same value, so order is moot.) -/
theorem gatherFill_getElem (tasks : List α) :
    ∀ (schedule : List Nat) (slots : List (Option α)),
      slots.length = tasks.length →
      ∀ j : Nat, (gatherFill tasks schedule slots)[j]? =
        if j ∈ schedule ∧ j < tasks.length then some tasks[j]? else slots[j]? := by
  intro schedule
  induction schedule with
  | nil =>
    intro slots hlen j
    simp [gatherFill]
  | cons i rest ih =>
    intro slots hlen j
    have hlen' : (slots.set i tasks[i]?).length = tasks.length := by
      simp [hlen]
    have step : gatherFill tasks (i :: rest) slots
        = gatherFill tasks rest (slots.set i tasks[i]?) := rfl
    rw [step, ih _ hlen' j, List.getElem?_set]
    simp only [List.mem_cons, hlen]
    by_cases hj : j < tasks.length
    · by_cases hjr : j ∈ rest
      · simp [hjr, hj]
      · by_cases hij : i = j
        · subst hij
          simp [hjr, hj]
        · have hji : ¬ j = i := fun h => hij h.symm
          simp [hjr, hji, hj]
          exact fun h => absurd h hij
    · have h1 : slots[j]? = none := List.getElem?_eq_none (by omega)
      by_cases hij : i = j
      · subst hij
        simp [hj, h1, hlen]
      · simp [hij, hj, h1]

/-- Any completion order that completes every task fills the slots with the
task results in task order. -/
theorem gatherRun_eq_of_perm (tasks : List α) (schedule : List Nat)
    (h : schedule.Perm (List.range tasks.length)) :
    gatherRun tasks schedule = tasks.map some := by
  apply List.ext_getElem?
  intro j
  rw [gatherRun, gatherFill_getElem tasks schedule _ (by simp) j]
  by_cases hj : j < tasks.length
  · have hmem : j ∈ schedule := h.mem_iff.mpr (List.mem_range.mpr hj)
    simp [hmem, hj, List.getElem?_eq_getElem hj]
  · have ht : tasks[j]? = none := List.getElem?_eq_none (by omega)
    simp [hj, List.getElem?_replicate, ht]

/-- Reading out fully-filled slots recovers the task results. -/
theorem allSome_map_some (l : List α) : allSome (l.map some) = some l := by
  induction l with
  | nil => rfl
  | cons a rest ih => simp [allSome, ih]

/-- C1: the final flat output is the qualifying users' row lists
concatenated in `get_users` order, independent of the completion order of
the concurrent per-user tasks (any permutation schedule yields the
sequential pipeline's result); within a user the posts iterated are in
descending id order and within a post the comments are in descending id
order (`latestBy` is pairwise descending). -/
theorem claim_c1_output_order (api : Api) (schedule : List Nat)
    (users : List Record) (husers : get_users api = .ok users)
    (hsched : schedule.Perm (List.range users.length)) :
    runPipelineSched api schedule = runPipeline api ∧
    runPipeline api =
      (sequenceE (users.map (process_user_data api))).map List.flatten ∧
    (∀ (xs : List Record) (n : Nat),
      List.Pairwise (fun a b => idKey b ≤ idKey a) (latestBy n xs)) := by
  have hg : gatherRun (users.map (process_user_data api)) schedule
      = (users.map (process_user_data api)).map some := by
    apply gatherRun_eq_of_perm
    simpa using hsched
  refine ⟨?_, ?_, ?_⟩
  · unfold runPipelineSched runPipeline
    rw [husers]
    simp only [bind, Except.bind]
    rw [hg, allSome_map_some]
  · unfold runPipeline
    rw [husers]
    simp only [bind, Except.bind]
    cases h : sequenceE (users.map (process_user_data api)) <;>
      simp [h, Except.map, pure, Except.pure]
  · intro xs n
    exact List.Pairwise.sublist (List.take_sublist n _)
      (mergeSort_descById_pairwise xs)

/-- Witness for C1: one qualifying user, the one-task schedule. -/
theorem claim_c1_output_order_witness :
    runPipelineSched usersApi [0] = runPipeline usersApi ∧
    runPipeline usersApi =
      (sequenceE (([[("id", PyVal.vInt 2), ("name", PyVal.vStr "B")]] :
        List Record).map (process_user_data usersApi))).map List.flatten ∧
    (∀ (xs : List Record) (n : Nat),
      List.Pairwise (fun a b => idKey b ≤ idKey a) (latestBy n xs)) :=
  claim_c1_output_order usersApi [0]
    [[("id", PyVal.vInt 2), ("name", PyVal.vStr "B")]] rfl
    (List.Perm.refl [0])

/-- A successful validation means every required field reads back non-null
with `d.get(...)`. -/
theorem validate_pyGet_ne_null {r : Record} :
    ∀ {fs : List String}, validate_data r fs = true →
      ∀ f ∈ fs, pyGet r f ≠ PyVal.vNull := by
  intro fs
  induction fs with
  | nil => intro _ f hf; simp at hf
  | cons f rest ih =>
    intro h g hg
    revert h
    simp only [validate_data]
    cases hl : List.lookup f r with
    | none => intro h; cases h
    | some v =>
      by_cases hv : v = PyVal.vNull
      · simp [hv]
      · simp only [hv, if_false]
        intro h
        rcases List.mem_cons.mp hg with rfl | hg'
        · unfold pyGet
          rw [hl]
          simpa using hv
        · exact ih h g hg'

/-- The seven keys of a constructed row, in source order. -/
theorem mkRow_keys (a b c d e f g : PyVal) :
    (mkRow a b c d e f g).map Prod.fst = fieldnames := rfl

/-- Reading each of the seven fields of a constructed row. -/
theorem pyGet_mkRow (a b c d e f g : PyVal) :
    pyGet (mkRow a b c d e f g) "user_id" = a ∧
    pyGet (mkRow a b c d e f g) "user_name" = b ∧
    pyGet (mkRow a b c d e f g) "post_id" = c ∧
    pyGet (mkRow a b c d e f g) "post_title" = d ∧
    pyGet (mkRow a b c d e f g) "comment_id" = e ∧
    pyGet (mkRow a b c d e f g) "comment_body" = f ∧
    pyGet (mkRow a b c d e f g) "comment_author_email" = g :=
  ⟨rfl, rfl, rfl, rfl, rfl, rfl, rfl⟩

/-- Every row a constructed by the comment loop has the CSV header's key
list and non-null values, provided the user/post components are
non-null. -/
theorem commentRows_rowOk {a b c d : PyVal} (ha : a ≠ PyVal.vNull)
    (hb : b ≠ PyVal.vNull) (hc : c ≠ PyVal.vNull) (hd : d ≠ PyVal.vNull)
    (comments : List Record) :
    ∀ row ∈ commentRows a b c d comments,
      row.map Prod.fst = fieldnames ∧
      ∀ k ∈ fieldnames, pyGet row k ≠ PyVal.vNull := by
  intro row hrow
  unfold commentRows at hrow
  rw [List.mem_filterMap] at hrow
  obtain ⟨cm, _, hval⟩ := hrow
  by_cases hv : validate_data cm ["id", "body", "email"] = true
  · rw [if_pos hv] at hval
    have hne := validate_pyGet_ne_null hv
    have h5 : pyGet cm "id" ≠ PyVal.vNull := hne "id" (by simp)
    have h6 : pyGet cm "body" ≠ PyVal.vNull := hne "body" (by simp)
    have h7 : pyGet cm "email" ≠ PyVal.vNull := hne "email" (by simp)
    have hr : row = mkRow a b c d (pyGet cm "id") (pyGet cm "body")
        (pyGet cm "email") := (Option.some.injEq _ _ ▸ hval).symm
    subst hr
    refine ⟨rfl, ?_⟩
    intro k hk
    have hm := pyGet_mkRow a b c d (pyGet cm "id") (pyGet cm "body")
      (pyGet cm "email")
    simp only [fieldnames, List.mem_cons, List.not_mem_nil, or_false] at hk
    rcases hk with rfl | rfl | rfl | rfl | rfl | rfl | rfl
    · rw [hm.1]; exact ha
    · rw [hm.2.1]; exact hb
    · rw [hm.2.2.1]; exact hc
    · rw [hm.2.2.2.1]; exact hd
    · rw [hm.2.2.2.2.1]; exact h5
    · rw [hm.2.2.2.2.2.1]; exact h6
    · rw [hm.2.2.2.2.2.2]; exact h7
  · rw [if_neg hv] at hval
    cases hval

/-- Every row the post loop emits has the header's key list and non-null
values, provided the user components are non-null. -/
theorem postLoop_rowOk {api : Api} {a b : PyVal} (ha : a ≠ PyVal.vNull)
    (hb : b ≠ PyVal.vNull) :
    ∀ (posts rows : List Record), postLoop api a b posts = .ok rows →
      ∀ row ∈ rows,
        row.map Prod.fst = fieldnames ∧
        ∀ k ∈ fieldnames, pyGet row k ≠ PyVal.vNull := by
  intro posts
  induction posts with
  | nil =>
    intro rows h row hrow
    unfold postLoop at h
    cases h
    simp at hrow
  | cons post rest ih =>
    intro rows h row hrow
    unfold postLoop at h
    by_cases hv : validate_data post ["id", "title"] = true
    · rw [if_pos hv] at h
      have hne := validate_pyGet_ne_null hv
      cases hcm : get_latest_comments_for_post api (pyGet post "id") with
      | error e => simp [bind, Except.bind, hcm] at h
      | ok comments =>
        cases ht : postLoop api a b rest with
        | error e => simp [bind, Except.bind, hcm, ht] at h
        | ok tail =>
          simp only [bind, Except.bind, hcm, ht, pure, Except.pure,
            Except.ok.injEq] at h
          rcases List.mem_append.mp (h ▸ hrow) with h1 | h2
          · exact commentRows_rowOk ha hb (hne "id" (by simp))
              (hne "title" (by simp)) comments row h1
          · exact ih tail ht row h2
    · rw [if_neg hv] at h
      exact ih rows h row hrow

/-- C9: every row `process_user_data` emits has exactly the seven CSV
header fields as its keys (in header order) and a non-null value in every
field: the user's id/name, the post's id/title and the comment's
id/body/email are each validated non-null before the row is built. -/
theorem claim_c9_row_invariant (api : Api) (user : Record)
    (rows : List Record) (h : process_user_data api user = .ok rows) :
    ∀ row ∈ rows,
      row.map Prod.fst = fieldnames ∧
      ∀ k ∈ fieldnames, pyGet row k ≠ PyVal.vNull := by
  unfold process_user_data at h
  by_cases hv : validate_data user ["id", "name"] = true
  · rw [if_pos hv] at h
    have hne := validate_pyGet_ne_null hv
    cases hp : get_latest_posts_for_user api (pyGet user "id") with
    | error e => simp [bind, Except.bind, hp] at h
    | ok posts =>
      simp only [bind, Except.bind, hp] at h
      exact postLoop_rowOk (hne "id" (by simp)) (hne "name" (by simp))
        posts rows h
  · rw [if_neg hv] at h
    cases h
    intro row hrow
    simp at hrow

/-- Fixture: the even-id user of `twoUsers`. -/
def sampleUser : Record := [("id", PyVal.vInt 2), ("name", PyVal.vStr "B")]

/-- Fixture: a record carrying every field any role needs, so one API
response serves as user list, post list and comment list alike. -/
def fatRecord : Record :=
  [("id", PyVal.vInt 2), ("name", PyVal.vStr "B"), ("title", PyVal.vStr "P"),
   ("body", PyVal.vStr "x"), ("email", PyVal.vStr "e1")]

/-- Fixture: an API answering every URL with `[fatRecord]`. -/
def uniApi : Api := ⟨fun _ _ => .ok [fatRecord]⟩

/-- Fixture: the single row `uniApi` produces for `sampleUser`. -/
def sampleRow : Record :=
  mkRow (PyVal.vInt 2) (PyVal.vStr "B") (PyVal.vInt 2) (PyVal.vStr "P")
    (PyVal.vInt 2) (PyVal.vStr "x") (PyVal.vStr "e1")

/-- Witness for C9: the concrete pipeline row has the header keys and no
null field. -/
theorem claim_c9_row_invariant_witness :
    sampleRow.map Prod.fst = fieldnames ∧
    ∀ k ∈ fieldnames, pyGet sampleRow k ≠ PyVal.vNull :=
  claim_c9_row_invariant uniApi sampleUser [sampleRow]
    (by
      simp [process_user_data, postLoop, commentRows,
        get_latest_posts_for_user, get_latest_comments_for_post, fetchE,
        fetch_json, uniApi, sampleUser, sampleRow, fatRecord, latestBy,
        validate_data, pyGet, mkRow, bind, Except.bind, pure, Except.pure,
        Except.mapError, Except.map, List.lookup_cons])
    sampleRow (by simp)
